import Mathlib

/-!
# Lifecycle wrapper of a gRPC server

Shallow embedding of `grpc/server/server.go` (package `grpc_server`).

The wrapper owns six fields and calls into four collaborators that are not part
of the repository: the gRPC engine (`grpc.NewServer`, `Serve`, `GracefulStop`,
service registration), the network stack (`net.Listen`, `Listener.Close`), the
signal source (`signal.Notify`) and the logger.  A call into a collaborator is
recorded as an `Event` in the trace of the method that performs it; what the
collaborator answers (the result of `net.Listen`, the error returned by
`Serve`, whether `grpc.NewServer` accepts the options or panics, whether a
signal is delivered, how the user hook ends) is an explicit input of the
method.  Service registration, `GracefulStop` and `Close` are taken to return
to the caller.

Go pointers and interface values that may be nil are `Option`s; calling a
method through a nil one is the run-time panic of Go, `Outcome.panicked`.
-/

namespace GrpcServer

/-! ## Values handed to and received from the collaborators -/

/-- A value of type `grpc.ServerOption`.  `KeepaliveParams`, `StreamInterceptor`
and `UnaryInterceptor` are the three directives the wrapper builds itself; the
interceptor directives carry the list given to `ChainStreamServer` /
`ChainUnaryServer` (interceptors are named by numbers).  `other` is any other
directive a caller hands to `AddOption`, `nil` the nil interface value. -/
inductive ServerOption where
  | nil
  | other (name : Nat)
  | KeepaliveParams (MaxConnectionAge : Int)
  | StreamInterceptor (chain : List Nat)
  | UnaryInterceptor (chain : List Nat)
  deriving DecidableEq, Repr

/-- A non-nil engine handle `*grpc.Server`, as returned by `grpc.NewServer`. -/
structure Engine where
  opts : List ServerOption
  deriving DecidableEq, Repr

/-- A non-nil `net.Listener`. -/
structure Listener where
  fd : Nat
  deriving DecidableEq, Repr

/-- How a call into user code ends. -/
inductive Completion where
  | returns
  | panics
  | diverges
  deriving DecidableEq, Repr

/-- A non-nil `func()` value: its name and the way a call to it ends. -/
structure Hook where
  name : Nat
  completion : Completion
  deriving DecidableEq, Repr

/-- The struct `Server`, fields in source order. -/
structure Server where
  server : Option Engine
  listener : Option Listener
  options : List ServerOption
  enabledReflection : Bool
  shutdownHook : Option Hook
  enabledHealthCheck : Bool
  deriving DecidableEq, Repr

/-- The zero value `Server{}`. -/
def Server.zero : Server :=
  { server := none, listener := none, options := [], enabledReflection := false,
    shutdownHook := none, enabledHealthCheck := false }

/-- Calls into the collaborators, in the order the wrapper performs them. -/
inductive Event where
  | grpcNewServer (opts : List ServerOption)
  | netListen (network : String) (add : String)
  | RegisterHealthServer (srv : Engine)
  | reflectionRegister (srv : Engine)
  | goServ
  | Serve (srv : Engine) (lis : Option Listener)
  | logPrintf (line : String)
  | logPrintln (line : String)
  | signalNotify
  | signalReceived
  | GracefulStop (srv : Engine)
  | listenerClose (lis : Listener)
  | hookCall (f : Hook)
  | hookReturn (f : Hook)
  deriving DecidableEq, Repr

/-- How a method call ends: it returns a value, panics, terminates the process
(`log.Fatalf`), or never returns. -/
inductive Outcome (α : Type) where
  | returned (v : α)
  | panicked (msg : String)
  | fatal (msg : String)
  | blocked
  deriving DecidableEq, Repr

/-- What a method call leaves behind: the receiver after the call, the events it
performed, and how it ended. -/
structure Res (α : Type) where
  server : Server
  trace : List Event
  out : Outcome α
  deriving DecidableEq, Repr

/-- A method with receiver `s *Server`. -/
def Go (α : Type) : Type := Server → Res α

/-- Sequencing of statements: the second runs on the receiver left by the first,
and only if the first returned. -/
def Go.bind {α β : Type} (m : Go α) (k : α → Go β) : Go β := fun s =>
  match m s with
  | ⟨s1, t1, .returned v⟩ =>
    match k v s1 with
    | ⟨s2, t2, o⟩ => ⟨s2, t1 ++ t2, o⟩
  | ⟨s1, t1, .panicked msg⟩ => ⟨s1, t1, .panicked msg⟩
  | ⟨s1, t1, .fatal msg⟩ => ⟨s1, t1, .fatal msg⟩
  | ⟨s1, t1, .blocked⟩ => ⟨s1, t1, .blocked⟩

/-- A statement that does nothing and yields `v`. -/
def Go.pure {α : Type} (v : α) : Go α := fun s => ⟨s, [], .returned v⟩

instance : Monad Go where
  pure := Go.pure
  bind := Go.bind

/-- Perform one call into a collaborator. -/
def emit (e : Event) : Go Unit := fun s => ⟨s, [e], .returned ()⟩

/-- Read the receiver. -/
def self : Go Server := fun s => ⟨s, [], .returned s⟩

/-- Assign to fields of the receiver. -/
def assign (f : Server → Server) : Go Unit := fun s => ⟨f s, [], .returned ()⟩

/-- Stop the method with a panic. -/
def nilDeref {α : Type} : Go α := fun s =>
  ⟨s, [], .panicked "invalid memory address or nil pointer dereference"⟩

/-- The method never gets past this point. -/
def block {α : Type} : Go α := fun s => ⟨s, [], .blocked⟩

/-! ## The methods of `Server` -/

/-- Source lines 29-31. -/
def AddOption (o : ServerOption) : Go Unit :=
  assign fun s => { s with options := s.options ++ [o] }

/-- Source lines 33-35. -/
def EnableReflection (e : Bool) : Go Unit :=
  assign fun s => { s with enabledReflection := e }

/-- Source lines 37-39. -/
def EnableHealthCheck (e : Bool) : Go Unit :=
  assign fun s => { s with enabledHealthCheck := e }

/-- Source lines 41-44.  `grpcNewServer` is `grpc.NewServer` at the time of the
call: the handle it returns, or `none` when it panics while applying the
options (the engine does on a nil option and on a second unary or stream
interceptor directive); the assignment of line 42 is then never reached. -/
def NewServer (grpcNewServer : List ServerOption → Option Engine) : Go Engine := do
  let s ← self
  emit (.grpcNewServer s.options)
  match grpcNewServer s.options with
  | none => fun s => ⟨s, [], .panicked "grpc.NewServer"⟩
  | some srv =>
    assign fun s => { s with server := some srv }
    return srv

/-- Source lines 50-53; `duration` is a `time.Duration`, a signed count of
nanoseconds. -/
def SetKeepaliveMaxConnectionAge (duration : Int) : Go Unit :=
  let keepAlive := ServerOption.KeepaliveParams duration
  assign fun s => { s with options := s.options ++ [keepAlive] }

/-- Source lines 55-58. -/
def SetStreamInterceptors (interceptors : List Nat) : Go Unit :=
  let chain := ServerOption.StreamInterceptor interceptors
  assign fun s => { s with options := s.options ++ [chain] }

/-- Source lines 60-63. -/
def SetUnaryInterceptors (interceptors : List Nat) : Go Unit :=
  let chain := ServerOption.UnaryInterceptor interceptors
  assign fun s => { s with options := s.options ++ [chain] }

/-- The call `grpc_health_v1.RegisterHealthServer(s.server, health.NewServer())`:
registration goes through the engine pointer. -/
def RegisterHealthServer : Option Engine → Go Unit
  | some srv => emit (.RegisterHealthServer srv)
  | none => nilDeref

/-- The call `reflection.Register(s.server)`. -/
def reflectionRegister : Option Engine → Go Unit
  | some srv => emit (.reflectionRegister srv)
  | none => nilDeref

/-- Source lines 65-86.  `netListen` is `net.Listen` at the time of the call; on
failure it returns a nil listener together with the error, and that nil is
what line 68 stores.  The returned `error` is `none` for nil. -/
def ListenAndServe (netListen : String → String → Except String Listener)
    (address : String) (port : Nat) : Go (Option String) := do
  let add := address ++ ":" ++ toString port
  emit (.netListen "tcp" add)
  match netListen "tcp" add with
  | .error err =>
    assign fun s => { s with listener := none }
    let msg := "Failed to listen: " ++ err
    return some msg
  | .ok lis =>
    assign fun s => { s with listener := some lis }
    let s ← self
    if s.enabledHealthCheck then
      RegisterHealthServer s.server
    if s.enabledReflection then
      reflectionRegister s.server
    emit .goServ
    emit (.logPrintf ("Server started on port: " ++ toString port ++ " \n"))
    return none

/-- Source lines 88-90; `f` may be the nil function. -/
def AddShutdownHook (f : Option Hook) : Go Unit :=
  assign fun s => { s with shutdownHook := f }

/-- The call `s.server.GracefulStop()`. -/
def GracefulStop : Option Engine → Go Unit
  | some srv => emit (.GracefulStop srv)
  | none => nilDeref

/-- The call `s.listener.Close()`; its result is discarded. -/
def listenerClose : Option Listener → Go Unit
  | some lis => emit (.listenerClose lis)
  | none => nilDeref

/-- Source lines 102-108. -/
def cleanup : Go Unit := do
  let s ← self
  emit (.logPrintln "Stopping the server")
  GracefulStop s.server
  emit (.logPrintln "Closing the listener")
  listenerClose s.listener
  emit (.logPrintln "End of Program")

/-- The call `s.shutdownHook()` of a non-nil hook. -/
def callHook (f : Hook) : Go Unit := do
  emit (.hookCall f)
  match f.completion with
  | .returns => emit (.hookReturn f)
  | .panics => fun s => ⟨s, [], .panicked "hook"⟩
  | .diverges => block

/-- Source lines 92-100.  `signal` says whether an interrupt or SIGTERM is ever
delivered to the channel. -/
def AwaitTermination (signal : Bool) : Go Unit := do
  emit .signalNotify
  if signal then
    emit .signalReceived
  else
    block
  cleanup
  let s ← self
  match s.shutdownHook with
  | some f => callHook f
  | none => pure ()

/-- Run a list of calls one after the other. -/
def Go.seq : List (Go Unit) → Go Unit
  | [] => pure ()
  | m :: ms => do m; Go.seq ms

/-- The seven configuration calls of the public API. -/
inductive ConfigCall where
  | AddOption (o : ServerOption)
  | SetKeepaliveMaxConnectionAge (duration : Int)
  | SetStreamInterceptors (interceptors : List Nat)
  | SetUnaryInterceptors (interceptors : List Nat)
  | EnableReflection (e : Bool)
  | EnableHealthCheck (e : Bool)
  | AddShutdownHook (f : Option Hook)
  deriving DecidableEq, Repr

/-- The method a configuration call invokes. -/
def ConfigCall.run : ConfigCall → Go Unit
  | .AddOption o => GrpcServer.AddOption o
  | .SetKeepaliveMaxConnectionAge d => GrpcServer.SetKeepaliveMaxConnectionAge d
  | .SetStreamInterceptors xs => GrpcServer.SetStreamInterceptors xs
  | .SetUnaryInterceptors xs => GrpcServer.SetUnaryInterceptors xs
  | .EnableReflection e => GrpcServer.EnableReflection e
  | .EnableHealthCheck e => GrpcServer.EnableHealthCheck e
  | .AddShutdownHook f => GrpcServer.AddShutdownHook f

/-- The directive an option-appending call stands for; the flag and hook setters
stand for none. -/
def ConfigCall.directive : ConfigCall → Option ServerOption
  | .AddOption o => some o
  | .SetKeepaliveMaxConnectionAge d => some (.KeepaliveParams d)
  | .SetStreamInterceptors xs => some (.StreamInterceptor xs)
  | .SetUnaryInterceptors xs => some (.UnaryInterceptor xs)
  | .EnableReflection _ => none
  | .EnableHealthCheck _ => none
  | .AddShutdownHook _ => none

/-- The lifecycle states of the specification that the fields tell apart. -/
inductive Phase where
  | Unbuilt
  | Built
  | Serving
  deriving DecidableEq, Repr

/-- Unbuilt while there is no engine, Built once there is an engine and no
listener, Serving once both are there. -/
def phase (s : Server) : Phase :=
  match s.server, s.listener with
  | none, _ => .Unbuilt
  | some _, none => .Built
  | some _, some _ => .Serving

/-- One call of the public API, with what the collaborators answer during it. -/
inductive Op where
  | AddOption (o : ServerOption)
  | EnableReflection (e : Bool)
  | EnableHealthCheck (e : Bool)
  | NewServer (grpcNewServer : List ServerOption → Option Engine)
  | SetKeepaliveMaxConnectionAge (duration : Int)
  | SetStreamInterceptors (interceptors : List Nat)
  | SetUnaryInterceptors (interceptors : List Nat)
  | ListenAndServe (netListen : String → String → Except String Listener)
      (address : String) (port : Nat)
  | AddShutdownHook (f : Option Hook)
  | AwaitTermination (signal : Bool)

/-- The method an operation invokes, its result dropped. -/
def Op.run : Op → Go Unit
  | .AddOption o => GrpcServer.AddOption o
  | .EnableReflection e => GrpcServer.EnableReflection e
  | .EnableHealthCheck e => GrpcServer.EnableHealthCheck e
  | .NewServer grpcNewServer => do let _ ← GrpcServer.NewServer grpcNewServer
  | .SetKeepaliveMaxConnectionAge d => GrpcServer.SetKeepaliveMaxConnectionAge d
  | .SetStreamInterceptors xs => GrpcServer.SetStreamInterceptors xs
  | .SetUnaryInterceptors xs => GrpcServer.SetUnaryInterceptors xs
  | .ListenAndServe netListen address port => do
    let _ ← GrpcServer.ListenAndServe netListen address port
  | .AddShutdownHook f => GrpcServer.AddShutdownHook f
  | .AwaitTermination signal => GrpcServer.AwaitTermination signal

/-- The receiver after a sequence of operations.  An operation that panics
leaves the receiver as it was at the panic and the sequence goes on, as it does
when the caller recovers. -/
def after (ops : List Op) (s : Server) : Server :=
  ops.foldl (fun st op => (op.run st).server) s

/-- A `net.Listen` that succeeds with listener 3. -/
def listenOk : String → String → Except String Listener :=
  fun _ _ => .ok ⟨3⟩

/-- A `net.Listen` that fails because the address is taken. -/
def listenInUse : String → String → Except String Listener :=
  fun _ _ => .error "bind: address already in use"

/-- Whether a directive installs the unary interceptor. -/
def ServerOption.isUnary : ServerOption → Bool
  | .UnaryInterceptor _ => true
  | _ => false

/-- Whether a directive installs the stream interceptor. -/
def ServerOption.isStream : ServerOption → Bool
  | .StreamInterceptor _ => true
  | _ => false

/-- A `grpc.NewServer` that panics on a nil option and on a second unary or a
second stream interceptor directive, and otherwise returns a handle named by the
options it was built from. -/
def oneInterceptorEach (opts : List ServerOption) : Option Engine :=
  if opts.contains .nil || decide (1 < opts.countP ServerOption.isUnary) ||
      decide (1 < opts.countP ServerOption.isStream) then none
  else some ⟨opts⟩

/-- The configuration of the specification's scenario: health check on,
reflection off, then build. -/
def buildHealthOnly : Go Unit := do
  EnableHealthCheck true
  EnableReflection false
  let _ ← NewServer oneInterceptorEach

/-- The scenario brought up to serving on listener 3, with `f` as shutdown hook. -/
def serveWithHook (f : Option Hook) : Go Unit := do
  AddShutdownHook f
  buildHealthOnly
  let _ ← ListenAndServe listenOk "127.0.0.1" 8080

/-- A history that builds and starts serving without ever registering a hook. -/
def bringUp : List Op :=
  [.EnableHealthCheck true, .NewServer oneInterceptorEach,
    .ListenAndServe listenOk "127.0.0.1" 8080]

/-! ## Sequencing lemmas -/

/-- The bind of the method monad is `Go.bind`. -/
theorem bind_apply {α β : Type} (m : Go α) (k : α → Go β) (s : Server) :
    (m >>= k) s = Go.bind m k s := rfl

/-- Sequencing after a statement that returned. -/
theorem bind_of_returned {α β : Type} (m : Go α) (k : α → Go β) (s s1 : Server)
    (t1 : List Event) (v : α) (h : m s = ⟨s1, t1, .returned v⟩) :
    (m >>= k) s = ⟨(k v s1).server, t1 ++ (k v s1).trace, (k v s1).out⟩ := by
  simp only [bind_apply, Go.bind, h]

/-- Sequencing after a statement that returned without calling a collaborator. -/
theorem bind_of_silent {α β : Type} (m : Go α) (k : α → Go β) (s s1 : Server)
    (v : α) (h : m s = ⟨s1, [], .returned v⟩) : (m >>= k) s = k v s1 := by
  rw [bind_of_returned m k s s1 [] v h]
  simp

/-- A configuration call returns, calls no collaborator, appends its directive (if it has
one) and leaves the two handles alone. -/
theorem configCall_run (c : ConfigCall) (s : Server) :
    ∃ s1, c.run s = ⟨s1, [], .returned ()⟩ ∧
      s1.options = s.options ++ c.directive.toList ∧ s1.server = s.server ∧
      s1.listener = s.listener := by
  cases c <;>
    exact ⟨_, rfl, by simp [ConfigCall.directive], rfl, rfl⟩

/-- A sequence of configuration calls appends the directives of its calls in order. -/
theorem configure_run (calls : List ConfigCall) (s : Server) :
    ∃ s1, Go.seq (calls.map ConfigCall.run) s = ⟨s1, [], .returned ()⟩ ∧
      s1.options = s.options ++ calls.filterMap ConfigCall.directive ∧
      s1.server = s.server ∧ s1.listener = s.listener := by
  induction calls generalizing s with
  | nil => exact ⟨s, rfl, by simp, rfl, rfl⟩
  | cons c cs ih =>
    obtain ⟨s1, h1, ho1, hs1, hl1⟩ := configCall_run c s
    obtain ⟨s2, h2, ho2, hs2, hl2⟩ := ih s1
    refine ⟨s2, ?_, ?_, by rw [hs2, hs1], by rw [hl2, hl1]⟩
    · simp only [List.map_cons, Go.seq]
      rw [bind_of_silent _ _ s s1 () h1, h2]
    · rw [ho2, ho1]
      cases hd : c.directive <;> simp [List.filterMap_cons, hd]

/-- ListenAndServe when the listen fails, on any receiver. -/
theorem listenAndServe_failed (netListen : String → String → Except String Listener)
    (address : String) (port : Nat) (s : Server) (err : String)
    (hfail : netListen "tcp" (address ++ ":" ++ toString port) = .error err) :
    ListenAndServe netListen address port s =
      ⟨{ s with listener := none }, [.netListen "tcp" (address ++ ":" ++ toString port)],
        .returned (some ("Failed to listen: " ++ err))⟩ := by
  simp [ListenAndServe, bind_apply, Go.bind, emit, assign, pure, Go.pure, hfail]

/-- ListenAndServe on a built receiver when the listen succeeds. -/
theorem listenAndServe_listening (netListen : String → String → Except String Listener)
    (address : String) (port : Nat) (s : Server) (srv : Engine) (lis : Listener)
    (hbuilt : s.server = some srv)
    (hok : netListen "tcp" (address ++ ":" ++ toString port) = .ok lis) :
    ListenAndServe netListen address port s =
      ⟨{ s with listener := some lis },
        [.netListen "tcp" (address ++ ":" ++ toString port)] ++
          (if s.enabledHealthCheck then [.RegisterHealthServer srv] else []) ++
          (if s.enabledReflection then [.reflectionRegister srv] else []) ++
          [.goServ, .logPrintf ("Server started on port: " ++ toString port ++ " \n")],
        .returned none⟩ := by
  cases hh : s.enabledHealthCheck <;> cases hr : s.enabledReflection <;>
    simp [ListenAndServe, bind_apply, Go.bind, emit, assign, self, pure, Go.pure, hok, hh, hr,
      hbuilt, RegisterHealthServer, reflectionRegister]

/-- The only field ListenAndServe assigns is the listener, also when it panics on a nil
engine. -/
theorem listenAndServe_server (netListen : String → String → Except String Listener)
    (address : String) (port : Nat) (s : Server) :
    (ListenAndServe netListen address port s).server =
      { s with listener := (netListen "tcp" (address ++ ":" ++ toString port)).toOption } := by
  cases hl : netListen "tcp" (address ++ ":" ++ toString port) with
  | error err => rw [listenAndServe_failed _ _ _ _ _ hl]; rfl
  | ok lis =>
    cases hh : s.enabledHealthCheck <;> cases hr : s.enabledReflection <;>
      cases hs : s.server <;>
      simp [ListenAndServe, bind_apply, Go.bind, emit, assign, self, pure, Go.pure, hl, hh, hr,
        hs, RegisterHealthServer, reflectionRegister, nilDeref, Except.toOption]

/-- AwaitTermination assigns no field, however it ends. -/
theorem awaitTermination_server (signal : Bool) (s : Server) :
    (AwaitTermination signal s).server = s := by
  cases signal <;> cases hs : s.server <;> cases hl : s.listener <;>
    cases hk : s.shutdownHook <;>
    simp [AwaitTermination, cleanup, callHook, bind_apply, Go.bind, emit, assign, self, pure,
      Go.pure, hs, hl, hk, GracefulStop, listenerClose, nilDeref, block]
  all_goals
    rename_i f
    cases hc : f.completion <;> simp [block, emit]

/-- AwaitTermination on a receiver with engine and listener, after the signal. -/
theorem awaitTermination_serving (s : Server) (srv : Engine) (lis : Listener)
    (hs : s.server = some srv) (hl : s.listener = some lis) :
    AwaitTermination true s =
      ⟨s, [.signalNotify, .signalReceived, .logPrintln "Stopping the server",
            .GracefulStop srv, .logPrintln "Closing the listener", .listenerClose lis,
            .logPrintln "End of Program"] ++
          (match s.shutdownHook with
            | none => []
            | some f => .hookCall f :: (if f.completion = .returns then [.hookReturn f] else [])),
        match s.shutdownHook with
        | none => .returned ()
        | some f =>
          match f.completion with
          | .returns => .returned ()
          | .panics => .panicked "hook"
          | .diverges => .blocked⟩ := by
  cases hk : s.shutdownHook with
  | none =>
    simp [AwaitTermination, cleanup, bind_apply, Go.bind, emit, self, pure, Go.pure, hs, hl, hk,
      GracefulStop, listenerClose]
  | some f =>
    cases hc : f.completion <;>
      simp [AwaitTermination, cleanup, callHook, bind_apply, Go.bind, emit, self, pure, Go.pure,
        hs, hl, hk, hc, GracefulStop, listenerClose, block]

/-- Dropping the result of a method does not change the receiver it leaves. -/
theorem discard_server {α : Type} (m : Go α) (s : Server) :
    ((do let _ ← m) s).server = (m s).server := by
  simp only [bind_apply, Go.bind]
  rcases m s with ⟨s1, t1, o⟩
  cases o <;> simp [pure, Go.pure]

/-- NewServer stores the handle the engine constructor returns and nothing when
the constructor panics; the constructor is called with the options either way. -/
theorem newServer_run (grpcNewServer : List ServerOption → Option Engine) (s : Server) :
    NewServer grpcNewServer s =
      match grpcNewServer s.options with
      | some srv => ⟨{ s with server := some srv }, [.grpcNewServer s.options], .returned srv⟩
      | none => ⟨s, [.grpcNewServer s.options], .panicked "grpc.NewServer"⟩ := by
  cases h : grpcNewServer s.options <;>
    simp [NewServer, bind_apply, Go.bind, self, emit, assign, pure, Go.pure, h]

/-- With an engine that allows one interceptor directive of each kind, NewServer after two
SetUnaryInterceptors calls panics in the constructor and stores no engine. -/
theorem newServer_refused_on_second_interceptor :
    (do SetUnaryInterceptors [1]; SetUnaryInterceptors [2]; NewServer oneInterceptorEach)
        Server.zero =
      ⟨{ Server.zero with options := [.UnaryInterceptor [1], .UnaryInterceptor [2]] },
        [.grpcNewServer [.UnaryInterceptor [1], .UnaryInterceptor [2]]],
        .panicked "grpc.NewServer"⟩ := by
  decide

/-- Which operation can change which of the hook, the engine handle and the listener handle. -/
theorem op_run_fields (op : Op) (s : Server) :
    ((op.run s).server.shutdownHook = s.shutdownHook ∨ ∃ f, op = .AddShutdownHook f) ∧
    ((op.run s).server.server = s.server ∨
      ∃ grpcNewServer srv, op = .NewServer grpcNewServer ∧
        grpcNewServer s.options = some srv ∧ (op.run s).server.server = some srv) ∧
    ((op.run s).server.listener = s.listener ∨
      ∃ netListen address port, op = .ListenAndServe netListen address port ∧
        (op.run s).server.listener =
          (netListen "tcp" (address ++ ":" ++ toString port)).toOption) := by
  cases op with
  | ListenAndServe netListen address port =>
    have h : ((Op.ListenAndServe netListen address port).run s).server =
        { s with listener := (netListen "tcp" (address ++ ":" ++ toString port)).toOption } := by
      rw [← listenAndServe_server]; exact discard_server _ s
    rw [h]
    exact ⟨Or.inl rfl, Or.inl rfl, Or.inr ⟨_, _, _, rfl, rfl⟩⟩
  | AwaitTermination signal =>
    have h : ((Op.AwaitTermination signal).run s).server = s := awaitTermination_server signal s
    rw [h]
    exact ⟨Or.inl rfl, Or.inl rfl, Or.inl rfl⟩
  | NewServer grpcNewServer =>
    have h : ((Op.NewServer grpcNewServer).run s).server = (NewServer grpcNewServer s).server :=
      discard_server _ s
    rw [h, newServer_run]
    cases hg : grpcNewServer s.options with
    | none => exact ⟨Or.inl rfl, Or.inl rfl, Or.inl rfl⟩
    | some srv => exact ⟨Or.inl rfl, Or.inr ⟨grpcNewServer, srv, rfl, hg, rfl⟩, Or.inl rfl⟩
  | AddShutdownHook f => exact ⟨Or.inr ⟨f, rfl⟩, Or.inl rfl, Or.inl rfl⟩
  | AddOption o => exact ⟨Or.inl rfl, Or.inl rfl, Or.inl rfl⟩
  | EnableReflection e => exact ⟨Or.inl rfl, Or.inl rfl, Or.inl rfl⟩
  | EnableHealthCheck e => exact ⟨Or.inl rfl, Or.inl rfl, Or.inl rfl⟩
  | SetKeepaliveMaxConnectionAge d => exact ⟨Or.inl rfl, Or.inl rfl, Or.inl rfl⟩
  | SetStreamInterceptors xs => exact ⟨Or.inl rfl, Or.inl rfl, Or.inl rfl⟩
  | SetUnaryInterceptors xs => exact ⟨Or.inl rfl, Or.inl rfl, Or.inl rfl⟩

/-- The state after one more operation. -/
theorem after_snoc (ops : List Op) (op : Op) (s : Server) :
    after (ops ++ [op]) s = (op.run (after ops s)).server := by
  simp [after, List.foldl_append]

/-- Without AddShutdownHook among the operations the hook is the initial one. -/
theorem after_hook_untouched (ops : List Op) (s : Server)
    (hnever : ∀ f, Op.AddShutdownHook f ∉ ops) :
    (after ops s).shutdownHook = s.shutdownHook := by
  induction ops using List.reverseRecOn with
  | nil => rfl
  | append_singleton ops op ih =>
    rw [after_snoc]
    rcases (op_run_fields op (after ops s)).1 with h | ⟨f, hf⟩
    · rw [h]
      exact ih fun f hm => hnever f (List.mem_append_left _ hm)
    · exact absurd (by simp [hf]) (hnever f)

/-- The engine handle is the initial one or a handle returned by the engine constructor of
a NewServer made. -/
theorem after_engine (ops : List Op) (s : Server) :
    (after ops s).server = s.server ∨
      ∃ grpcNewServer opts srv, Op.NewServer grpcNewServer ∈ ops ∧
        grpcNewServer opts = some srv ∧ (after ops s).server = some srv := by
  induction ops using List.reverseRecOn with
  | nil => exact Or.inl rfl
  | append_singleton ops op ih =>
    rw [after_snoc]
    rcases (op_run_fields op (after ops s)).2.1 with h | ⟨g, srv, hop, hg, h⟩
    · rcases ih with ih | ⟨g, opts, srv, hm, hg, ih⟩
      · exact Or.inl (h.trans ih)
      · exact Or.inr ⟨g, opts, srv, List.mem_append_left _ hm, hg, h.trans ih⟩
    · exact Or.inr ⟨g, _, srv, by simp [hop], hg, h⟩

/-- The listener handle is the initial one or the answer of the listen of a ListenAndServe
made. -/
theorem after_listener (ops : List Op) (s : Server) :
    (after ops s).listener = s.listener ∨
      ∃ netListen address port, Op.ListenAndServe netListen address port ∈ ops ∧
        (after ops s).listener =
          (netListen "tcp" (address ++ ":" ++ toString port)).toOption := by
  induction ops using List.reverseRecOn with
  | nil => exact Or.inl rfl
  | append_singleton ops op ih =>
    rw [after_snoc]
    rcases (op_run_fields op (after ops s)).2.2 with h | ⟨f, a, p, hop, h⟩
    · rcases ih with ih | ⟨f, a, p, hm, ih⟩
      · exact Or.inl (h.trans ih)
      · exact Or.inr ⟨f, a, p, List.mem_append_left _ hm, h.trans ih⟩
    · exact Or.inr ⟨f, a, p, by simp [hop], h⟩

/-! ## The claims -/

/-- C1. Whatever configuration calls are made on a zero-value Server before
NewServer, the one engine construction NewServer performs receives exactly the
directives of the option-appending calls, one per call and in call order, and
that list is the Server's options.  When the engine constructor returns a
handle, NewServer returns and stores it; when it panics on the list, NewServer
panics and no engine is stored. -/
theorem newServer_passes_accumulated_options
    (grpcNewServer : List ServerOption → Option Engine) (calls : List ConfigCall) :
    ((do Go.seq (calls.map ConfigCall.run); NewServer grpcNewServer) Server.zero).trace =
      [.grpcNewServer (calls.filterMap ConfigCall.directive)] ∧
    (Go.seq (calls.map ConfigCall.run) Server.zero).server.options =
      calls.filterMap ConfigCall.directive ∧
    ((do Go.seq (calls.map ConfigCall.run); NewServer grpcNewServer)
      Server.zero).server.options = calls.filterMap ConfigCall.directive ∧
    (∀ srv, grpcNewServer (calls.filterMap ConfigCall.directive) = some srv →
      ((do Go.seq (calls.map ConfigCall.run); NewServer grpcNewServer) Server.zero).out =
        .returned srv ∧
      ((do Go.seq (calls.map ConfigCall.run); NewServer grpcNewServer)
        Server.zero).server.server = some srv) ∧
    (grpcNewServer (calls.filterMap ConfigCall.directive) = none →
      ((do Go.seq (calls.map ConfigCall.run); NewServer grpcNewServer) Server.zero).out =
        .panicked "grpc.NewServer" ∧
      ((do Go.seq (calls.map ConfigCall.run); NewServer grpcNewServer)
        Server.zero).server.server = none) := by
  obtain ⟨s1, h1, ho1, hs1, _⟩ := configure_run calls Server.zero
  have ho : s1.options = calls.filterMap ConfigCall.directive := by
    rw [ho1]; simp [Server.zero]
  have hs : s1.server = none := by rw [hs1]; rfl
  rw [bind_of_silent _ _ Server.zero s1 () h1, h1, newServer_run, ho]
  refine ⟨?_, rfl, ?_, ?_, ?_⟩
  · cases grpcNewServer (calls.filterMap ConfigCall.directive) <;> rfl
  · cases grpcNewServer (calls.filterMap ConfigCall.directive) <;> simp [ho]
  · intro srv h; rw [h]; exact ⟨rfl, rfl⟩
  · intro h; rw [h]; exact ⟨rfl, hs⟩

/-- C6. EnableReflection, EnableHealthCheck and AddShutdownHook are
last-writer-wins: in every state, the setter called with a and then with b
leaves exactly what the setter called with b alone leaves, and after any
non-empty sequence of calls the flag (or the hook) is the argument of the last
call. -/
theorem setters_last_writer_wins (s : Server) :
    (∀ a b : Bool, (do EnableReflection a; EnableReflection b) s = EnableReflection b s) ∧
    (∀ a b : Bool, (do EnableHealthCheck a; EnableHealthCheck b) s = EnableHealthCheck b s) ∧
    (∀ a b : Option Hook, (do AddShutdownHook a; AddShutdownHook b) s = AddShutdownHook b s) ∧
    (∀ (args : List Bool) (h : args ≠ []),
      (Go.seq (args.map EnableReflection) s).server.enabledReflection = args.getLast h) ∧
    (∀ (args : List Bool) (h : args ≠ []),
      (Go.seq (args.map EnableHealthCheck) s).server.enabledHealthCheck = args.getLast h) ∧
    (∀ (args : List (Option Hook)) (h : args ≠ []),
      (Go.seq (args.map AddShutdownHook) s).server.shutdownHook = args.getLast h) := by
  refine ⟨fun a b => rfl, fun a b => rfl, fun a b => rfl, ?_, ?_, ?_⟩
  · intro args h
    induction args generalizing s with
    | nil => exact absurd rfl h
    | cons a as ih =>
      simp only [List.map_cons, Go.seq]
      rw [bind_of_silent _ _ s { s with enabledReflection := a } () rfl]
      cases as with
      | nil => rfl
      | cons b bs => rw [ih _ (List.cons_ne_nil b bs)]; rfl
  · intro args h
    induction args generalizing s with
    | nil => exact absurd rfl h
    | cons a as ih =>
      simp only [List.map_cons, Go.seq]
      rw [bind_of_silent _ _ s { s with enabledHealthCheck := a } () rfl]
      cases as with
      | nil => rfl
      | cons b bs => rw [ih _ (List.cons_ne_nil b bs)]; rfl
  · intro args h
    induction args generalizing s with
    | nil => exact absurd rfl h
    | cons a as ih =>
      simp only [List.map_cons, Go.seq]
      rw [bind_of_silent _ _ s { s with shutdownHook := a } () rfl]
      cases as with
      | nil => rfl
      | cons b bs => rw [ih _ (List.cons_ne_nil b bs)]; rfl

/-- C7, refuted as stated: on the zero-value Server, SetUnaryInterceptors [1]
followed by SetUnaryInterceptors [2] leaves two unary-interceptor directives,
not the single one that SetUnaryInterceptors [2] alone leaves; the same for
SetStreamInterceptors. -/
theorem setInterceptors_twice_not_replace :
    (do SetUnaryInterceptors [1]; SetUnaryInterceptors [2]) Server.zero ≠
      SetUnaryInterceptors [2] Server.zero ∧
    ((do SetUnaryInterceptors [1]; SetUnaryInterceptors [2]) Server.zero).server.options =
      [.UnaryInterceptor [1], .UnaryInterceptor [2]] ∧
    (do SetStreamInterceptors [1]; SetStreamInterceptors [2]) Server.zero ≠
      SetStreamInterceptors [2] Server.zero ∧
    ((do SetStreamInterceptors [1]; SetStreamInterceptors [2]) Server.zero).server.options =
      [.StreamInterceptor [1], .StreamInterceptor [2]] := by
  decide

/-- C7, amended. SetUnaryInterceptors (respectively SetStreamInterceptors)
called more than once appends: after the call with xs followed by the call with
ys the options are the earlier options followed by the directive built from xs
and then the directive built from ys; every other field is untouched and no
collaborator is called. -/
theorem setInterceptors_twice_appends (s : Server) (xs ys : List Nat) :
    (do SetUnaryInterceptors xs; SetUnaryInterceptors ys) s =
      ⟨{ s with options := s.options ++ [.UnaryInterceptor xs, .UnaryInterceptor ys] }, [],
        .returned ()⟩ ∧
    (do SetStreamInterceptors xs; SetStreamInterceptors ys) s =
      ⟨{ s with options := s.options ++ [.StreamInterceptor xs, .StreamInterceptor ys] }, [],
        .returned ()⟩ := by
  constructor
  · rw [bind_of_silent _ _ s { s with options := s.options ++ [.UnaryInterceptor xs] } () rfl]
    simp [SetUnaryInterceptors, assign]
  · rw [bind_of_silent _ _ s { s with options := s.options ++ [.StreamInterceptor xs] } () rfl]
    simp [SetStreamInterceptors, assign]

/-- C8, refuted as stated: on the Server left by NewServer on the zero value
(the engine accepts the empty option list), each of the four option-appending
operations changes the options sequence. -/
theorem options_not_frozen_by_newServer :
    (NewServer oneInterceptorEach Server.zero).out = .returned ⟨[]⟩ ∧
    (AddOption (.other 1) (NewServer oneInterceptorEach Server.zero).server).server.options ≠
      (NewServer oneInterceptorEach Server.zero).server.options ∧
    (SetKeepaliveMaxConnectionAge 5
        (NewServer oneInterceptorEach Server.zero).server).server.options ≠
      (NewServer oneInterceptorEach Server.zero).server.options ∧
    (SetStreamInterceptors [1] (NewServer oneInterceptorEach Server.zero).server).server.options ≠
      (NewServer oneInterceptorEach Server.zero).server.options ∧
    (SetUnaryInterceptors [1] (NewServer oneInterceptorEach Server.zero).server).server.options ≠
      (NewServer oneInterceptorEach Server.zero).server.options := by
  decide

/-- C8, amended. NewServer does not freeze the options: it leaves the sequence
as it is and hands it to the engine constructor, and each option-appending
operation called afterwards still appends its one directive at the end, the
earlier entries kept, and touches no other field, so the engine handle stays as
NewServer left it: the handle the constructor returned, or, when the
constructor panicked on the options, whatever was there before. -/
theorem options_after_newServer (grpcNewServer : List ServerOption → Option Engine)
    (s : Server) :
    (NewServer grpcNewServer s).trace = [.grpcNewServer s.options] ∧
    (NewServer grpcNewServer s).server.options = s.options ∧
    (∀ srv, grpcNewServer s.options = some srv →
      (NewServer grpcNewServer s).server = { s with server := some srv }) ∧
    (grpcNewServer s.options = none → (NewServer grpcNewServer s).server = s) ∧
    (∀ o, (AddOption o (NewServer grpcNewServer s).server).server =
      { (NewServer grpcNewServer s).server with options := s.options ++ [o] }) ∧
    (∀ d, (SetKeepaliveMaxConnectionAge d (NewServer grpcNewServer s).server).server =
      { (NewServer grpcNewServer s).server with
        options := s.options ++ [.KeepaliveParams d] }) ∧
    (∀ xs, (SetStreamInterceptors xs (NewServer grpcNewServer s).server).server =
      { (NewServer grpcNewServer s).server with
        options := s.options ++ [.StreamInterceptor xs] }) ∧
    (∀ xs, (SetUnaryInterceptors xs (NewServer grpcNewServer s).server).server =
      { (NewServer grpcNewServer s).server with
        options := s.options ++ [.UnaryInterceptor xs] }) := by
  rw [newServer_run]
  cases h : grpcNewServer s.options with
  | none =>
    refine ⟨rfl, rfl, ?_, fun _ => rfl, fun _ => rfl, fun _ => rfl, fun _ => rfl, fun _ => rfl⟩
    intro srv hh
    cases hh
  | some srv =>
    refine ⟨rfl, rfl, ?_, ?_, fun _ => rfl, fun _ => rfl, fun _ => rfl, fun _ => rfl⟩
    · intro e hh
      cases hh
      rfl
    · intro hh
      cases hh

/-- C2. On a built Server, when opening the TCP listener fails, ListenAndServe
returns a non-nil error (it neither panics nor terminates the process); its only
call to a collaborator is the listen attempt, so no health-check or reflection
service is registered, the serve loop is not started and the startup line is not
logged; the receiver keeps its engine, has no listener, and is in the Built
state. -/
theorem listenAndServe_bind_failure (netListen : String → String → Except String Listener)
    (address : String) (port : Nat) (s : Server) (srv : Engine) (err : String)
    (hbuilt : s.server = some srv)
    (hfail : netListen "tcp" (address ++ ":" ++ toString port) = .error err) :
    (ListenAndServe netListen address port s).out =
      .returned (some ("Failed to listen: " ++ err)) ∧
    (ListenAndServe netListen address port s).trace =
      [.netListen "tcp" (address ++ ":" ++ toString port)] ∧
    (∀ e, Event.RegisterHealthServer e ∉ (ListenAndServe netListen address port s).trace) ∧
    (∀ e, Event.reflectionRegister e ∉ (ListenAndServe netListen address port s).trace) ∧
    Event.goServ ∉ (ListenAndServe netListen address port s).trace ∧
    (∀ line, Event.logPrintf line ∉ (ListenAndServe netListen address port s).trace) ∧
    (ListenAndServe netListen address port s).server = { s with listener := none } ∧
    phase (ListenAndServe netListen address port s).server = .Built := by
  rw [listenAndServe_failed netListen address port s err hfail]
  simp [phase, hbuilt]

/-- C2 at a concrete input: port 8080 is taken. -/
theorem listenAndServe_bind_failure_witness :
    (NewServer oneInterceptorEach Server.zero).server.server = some ⟨[]⟩ ∧
    (ListenAndServe listenInUse "127.0.0.1" 8080 (NewServer oneInterceptorEach Server.zero).server).out =
      .returned (some "Failed to listen: bind: address already in use") ∧
    phase (ListenAndServe listenInUse "127.0.0.1" 8080 (NewServer oneInterceptorEach Server.zero).server).server =
      .Built :=
  have h := listenAndServe_bind_failure listenInUse "127.0.0.1" 8080
    (NewServer oneInterceptorEach Server.zero).server ⟨[]⟩ "bind: address already in use" rfl rfl
  ⟨rfl, h.1, h.2.2.2.2.2.2.2⟩

/-- C5. On a built Server, when opening the listener succeeds, ListenAndServe
returns nil; the health-check service is registered on the engine exactly when
the health-check flag is set and the reflection service exactly when the
reflection flag is set; every registration comes before the start of the
background serve loop and none after it. -/
theorem listenAndServe_registers_by_flags
    (netListen : String → String → Except String Listener)
    (address : String) (port : Nat) (s : Server) (srv : Engine) (lis : Listener)
    (hbuilt : s.server = some srv)
    (hok : netListen "tcp" (address ++ ":" ++ toString port) = .ok lis) :
    (ListenAndServe netListen address port s).out = .returned none ∧
    (ListenAndServe netListen address port s).trace =
      [.netListen "tcp" (address ++ ":" ++ toString port)] ++
        (if s.enabledHealthCheck then [.RegisterHealthServer srv] else []) ++
        (if s.enabledReflection then [.reflectionRegister srv] else []) ++
        [.goServ, .logPrintf ("Server started on port: " ++ toString port ++ " \n")] ∧
    (Event.RegisterHealthServer srv ∈ (ListenAndServe netListen address port s).trace ↔
      s.enabledHealthCheck = true) ∧
    (Event.reflectionRegister srv ∈ (ListenAndServe netListen address port s).trace ↔
      s.enabledReflection = true) ∧
    (∃ before later, (ListenAndServe netListen address port s).trace =
        before ++ .goServ :: later ∧ Event.goServ ∉ before ∧
        (∀ e, Event.RegisterHealthServer e ∉ later ∧ Event.reflectionRegister e ∉ later) ∧
        (s.enabledHealthCheck = true → Event.RegisterHealthServer srv ∈ before) ∧
        (s.enabledReflection = true → Event.reflectionRegister srv ∈ before)) := by
  rw [listenAndServe_listening netListen address port s srv lis hbuilt hok]
  refine ⟨rfl, rfl, ?_, ?_, ?_⟩
  · cases s.enabledHealthCheck <;> cases s.enabledReflection <;> simp
  · cases s.enabledHealthCheck <;> cases s.enabledReflection <;> simp
  · refine ⟨[.netListen "tcp" (address ++ ":" ++ toString port)] ++
        (if s.enabledHealthCheck then [.RegisterHealthServer srv] else []) ++
        (if s.enabledReflection then [.reflectionRegister srv] else []),
      [.logPrintf ("Server started on port: " ++ toString port ++ " \n")], ?_, ?_, ?_, ?_, ?_⟩
    · simp
    · cases s.enabledHealthCheck <;> cases s.enabledReflection <;> simp
    · simp
    · intro h; simp [h]
    · intro h; simp [h]

/-- C5 at the scenario of the specification: health check on, reflection off. -/
theorem listenAndServe_registers_by_flags_witness :
    (buildHealthOnly Server.zero).server.server = some ⟨[]⟩ ∧
    (ListenAndServe listenOk "127.0.0.1" 8080 (buildHealthOnly Server.zero).server).trace =
      [.netListen "tcp" "127.0.0.1:8080", .RegisterHealthServer ⟨[]⟩, .goServ,
        .logPrintf "Server started on port: 8080 \n"] :=
  ⟨rfl, (listenAndServe_registers_by_flags listenOk "127.0.0.1" 8080
    (buildHealthOnly Server.zero).server ⟨[]⟩ ⟨3⟩ rfl rfl).2.1⟩

/-- C3. On a Server in the Serving state with a registered hook, once the
termination signal is received AwaitTermination performs the engine's graceful
stop, then the listener close, then the hook, in this order; the hook is called
exactly once and no other hook is; AwaitTermination returns only if the hook
returned, and the hook's return is then the last thing that happened. -/
theorem awaitTermination_teardown_then_hook (s : Server) (srv : Engine) (lis : Listener)
    (f : Hook) (hs : s.server = some srv) (hl : s.listener = some lis)
    (hk : s.shutdownHook = some f) :
    (AwaitTermination true s).trace =
      [.signalNotify, .signalReceived, .logPrintln "Stopping the server", .GracefulStop srv,
        .logPrintln "Closing the listener", .listenerClose lis, .logPrintln "End of Program",
        .hookCall f] ++ (if f.completion = .returns then [.hookReturn f] else []) ∧
    (∀ g, (AwaitTermination true s).trace.count (.hookCall g) = if g = f then 1 else 0) ∧
    ((AwaitTermination true s).out = .returned () ↔ f.completion = .returns) ∧
    ((AwaitTermination true s).out = .returned () →
      (AwaitTermination true s).trace.getLast? = some (.hookReturn f)) := by
  rw [awaitTermination_serving s srv lis hs hl, hk]
  refine ⟨by simp, ?_, ?_, ?_⟩
  · intro g
    by_cases hg : g = f
    · subst hg
      cases hc : g.completion <;> simp [List.count_cons, hc]
    · have hg2 : ¬ f = g := fun h => hg h.symm
      cases hc : f.completion <;> simp [List.count_cons, hc, hg, hg2]
  · cases hc : f.completion <;> simp [hc]
  · cases hc : f.completion <;> simp [hc, List.getLast?]

/-- C3 at a concrete serving Server with hook 7. -/
theorem awaitTermination_teardown_then_hook_witness :
    ((serveWithHook (some ⟨7, .returns⟩) Server.zero).server.server = some ⟨[]⟩ ∧
      (serveWithHook (some ⟨7, .returns⟩) Server.zero).server.listener = some ⟨3⟩ ∧
      (serveWithHook (some ⟨7, .returns⟩) Server.zero).server.shutdownHook =
        some ⟨7, .returns⟩) ∧
    (AwaitTermination true (serveWithHook (some ⟨7, .returns⟩) Server.zero).server).trace =
      [.signalNotify, .signalReceived, .logPrintln "Stopping the server", .GracefulStop ⟨[]⟩,
        .logPrintln "Closing the listener", .listenerClose ⟨3⟩, .logPrintln "End of Program",
        .hookCall ⟨7, .returns⟩, .hookReturn ⟨7, .returns⟩] :=
  ⟨⟨rfl, rfl, rfl⟩, (awaitTermination_teardown_then_hook
    (serveWithHook (some ⟨7, .returns⟩) Server.zero).server ⟨[]⟩ ⟨3⟩ ⟨7, .returns⟩
    rfl rfl rfl).1⟩

/-- C4. On a Server that reached the Serving state by operations among which
AddShutdownHook never occurs, AwaitTermination after the termination signal
returns normally: the engine is gracefully stopped, then the listener is closed,
no hook is called, and there is no panic from a nil engine, listener or hook. -/
theorem awaitTermination_without_hook (ops : List Op)
    (hnever : ∀ f, Op.AddShutdownHook f ∉ ops)
    (hserving : phase (after ops Server.zero) = .Serving) :
    ∃ srv lis, (after ops Server.zero).server = some srv ∧
      (after ops Server.zero).listener = some lis ∧
      AwaitTermination true (after ops Server.zero) =
        ⟨after ops Server.zero,
          [.signalNotify, .signalReceived, .logPrintln "Stopping the server",
            .GracefulStop srv, .logPrintln "Closing the listener", .listenerClose lis,
            .logPrintln "End of Program"],
          .returned ()⟩ ∧
      (∀ g, Event.hookCall g ∉ (AwaitTermination true (after ops Server.zero)).trace) := by
  have hk : (after ops Server.zero).shutdownHook = none :=
    after_hook_untouched ops Server.zero hnever
  cases hs : (after ops Server.zero).server with
  | none => simp [phase, hs] at hserving
  | some srv =>
    cases hl : (after ops Server.zero).listener with
    | none => simp [phase, hs, hl] at hserving
    | some lis =>
      have h := awaitTermination_serving (after ops Server.zero) srv lis hs hl
      rw [hk] at h
      refine ⟨srv, lis, rfl, rfl, ?_, ?_⟩
      · rw [h]; simp
      · rw [h]; simp

/-- C4 at a concrete history without AddShutdownHook. -/
theorem awaitTermination_without_hook_witness :
    phase (after bringUp Server.zero) = .Serving ∧
    ∃ srv lis, (after bringUp Server.zero).server = some srv ∧
      (after bringUp Server.zero).listener = some lis ∧
      AwaitTermination true (after bringUp Server.zero) =
        ⟨after bringUp Server.zero,
          [.signalNotify, .signalReceived, .logPrintln "Stopping the server",
            .GracefulStop srv, .logPrintln "Closing the listener", .listenerClose lis,
            .logPrintln "End of Program"],
          .returned ()⟩ ∧
      (∀ g, Event.hookCall g ∉ (AwaitTermination true (after bringUp Server.zero)).trace) :=
  ⟨rfl, awaitTermination_without_hook bringUp (by simp [bringUp]) rfl⟩

/-- C9. In every state reached from the zero-value Server by public operations,
the engine handle is non-nil only if NewServer occurs among the operations made,
and it is then a handle the engine constructor of such a NewServer returned; the
listener handle is non-nil only if it is the listener returned by a successful
listen of a ListenAndServe among them; a ListenAndServe whose listen fails
leaves the listener handle nil. -/
theorem handles_only_after_their_operation (ops : List Op) :
    ((after ops Server.zero).server ≠ none → ∃ grpcNewServer, Op.NewServer grpcNewServer ∈ ops) ∧
    (∀ srv, (after ops Server.zero).server = some srv →
      ∃ grpcNewServer opts, Op.NewServer grpcNewServer ∈ ops ∧ grpcNewServer opts = some srv) ∧
    (∀ lis, (after ops Server.zero).listener = some lis →
      ∃ netListen address port, Op.ListenAndServe netListen address port ∈ ops ∧
        netListen "tcp" (address ++ ":" ++ toString port) = .ok lis) ∧
    (∀ netListen address port err,
      netListen "tcp" (address ++ ":" ++ toString port) = .error err →
      (after (ops ++ [.ListenAndServe netListen address port]) Server.zero).listener = none) := by
  refine ⟨?_, ?_, ?_, ?_⟩
  · intro hne
    rcases after_engine ops Server.zero with h | ⟨g, _, _, hm, _, _⟩
    · exact absurd h hne
    · exact ⟨g, hm⟩
  · intro srv hsrv
    rcases after_engine ops Server.zero with h | ⟨g, opts, e, hm, hg, h⟩
    · rw [h] at hsrv; simp [Server.zero] at hsrv
    · rw [hsrv] at h
      cases h
      exact ⟨g, opts, hm, hg⟩
  · intro lis hlis
    rcases after_listener ops Server.zero with h | ⟨f, a, p, hm, h⟩
    · rw [h] at hlis; simp [Server.zero] at hlis
    · refine ⟨f, a, p, hm, ?_⟩
      rw [hlis] at h
      cases hf : f "tcp" (a ++ ":" ++ toString p) with
      | error e => rw [hf] at h; simp [Except.toOption] at h
      | ok l => rw [hf] at h; simp [Except.toOption] at h; rw [h]
  · intro f a p err hf
    rw [after_snoc]
    have h : ((Op.ListenAndServe f a p).run (after ops Server.zero)).server =
        (ListenAndServe f a p (after ops Server.zero)).server := discard_server _ _
    rw [h, listenAndServe_failed f a p _ err hf]

end GrpcServer
